import Mathlib

/-!
Shallow embedding of `sockeye/transformer.py`.

The python module builds mxnet *symbolic* computation graphs.  We embed the
graph language as an inductive type `Symb` with one constructor per mxnet
operation that the module uses, and model mxnet's bind-time shape inference
by the function `inferShape` below.  External capabilities (layer
normalization, multi-head attention, dropout, fully-connected layers) are
represented as opaque graph nodes whose shape behaviour follows the
contracts stated for them: layer normalization, dropout and attention are
shape preserving, a fully-connected layer maps `(n, d)` to
`(n, num_hidden)`, and mxnet `reshape` follows its documented semantics for
the shape codes `-3` (merge two axes), `-4` (split an axis), and `-1`
(infer an axis).

The autoregressive bias construction (`get_bias`) is numeric rather than
symbolic; it is embedded over `ℚ` as nested lists, mirroring the numpy
pipeline `np.triu(np.ones((n, n)), k=1)` → reshape → scale.
-/

/-- Errors raised by `TransformerProcessBlock.__call__`: the assertion
"Residual connection not allowed if no previous value given." and the
ValueError "Unknown step in sequence". -/
inductive TErr where
  | residualNoPrev
  | unknownStep (c : Char)
deriving DecidableEq, Repr

/-- Symbolic tensor expressions: one constructor per mxnet symbol operation
used in `transformer.py`.

* `plus` — `mx.sym._internal._plus(data, prev, name=...)`
* `reshapeMerge a nh` — `mx.sym.reshape(a, shape=(-3, nh))`
* `layerNorm` — `layers.LayerNormalization(...).normalize` (external)
* `reshapeSplit a len nh name` — `mx.sym.reshape(a, shape=(-4, -1, len, nh))`
* `dropout` — `mx.sym.Dropout(a, p=...)`
* `reshapeFlatten a` — `mx.sym.reshape(a, shape=(-3, -1))`
* `fullyConnected a w b nh` — `mx.sym.FullyConnected(data=a, num_hidden=nh, weight=w, bias=b)`
* `reluAct` — `mx.sym.Activation(a, act_type="relu")`
* `reshapeTo3 a len nm` — `mx.sym.reshape(a, shape=(-1, len, nm))`
* `selfAttention` / `selfAttentionBias` — `layers.MultiHeadSelfAttention.__call__`
  without / with the optional additive `bias` argument (external)
* `crossAttention` — `layers.MultiHeadAttention.__call__` (external)
-/
inductive Symb where
  | var (name : String)
  | plus (a b : Symb) (name : String)
  | reshapeMerge (a : Symb) (numHidden : ℕ)
  | layerNorm (a : Symb) (pfx : String)
  | reshapeSplit (a : Symb) (length numHidden : ℕ) (name : String)
  | dropout (a : Symb) (p : ℚ) (name : String)
  | reshapeFlatten (a : Symb)
  | fullyConnected (a w b : Symb) (numHidden : ℕ)
  | reluAct (a : Symb)
  | reshapeTo3 (a : Symb) (length numModel : ℕ)
  | selfAttention (a lengths : Symb) (length : ℕ) (pfx : String)
  | selfAttentionBias (a lengths bias : Symb) (length : ℕ) (pfx : String)
  | crossAttention (q : Symb) (qLength : ℕ) (kv kvLengths : Symb) (kvLength : ℕ) (pfx : String)
deriving DecidableEq, Repr

/-- Bind-time shape inference, as mxnet performs it on the graph.  `env`
gives the shapes bound to the free variables.  Shapes of the external
operations follow their contracts: layer normalization, ReLU, dropout and
attention preserve the shape of their (first) tensor argument, a
fully-connected layer maps `(n, d)` to `(n, numHidden)`, and the reshape
codes follow mxnet's documented semantics, returning `none` when the
requested reshape is invalid (non-divisible split or element-count
mismatch). -/
def inferShape (env : String → Option (List ℕ)) : Symb → Option (List ℕ)
  | .var n => env n
  | .plus a b _ =>
      match inferShape env a, inferShape env b with
      | some sa, some sb => if sa = sb then some sa else none
      | _, _ => none
  | .reshapeMerge a nh =>
      match inferShape env a with
      | some [b, l, h] => if b * l * h = b * l * nh then some [b * l, nh] else none
      | _ => none
  | .layerNorm a _ => inferShape env a
  | .reshapeSplit a len nh _ =>
      match inferShape env a with
      | some [n, h] =>
          if 0 < len ∧ n % len = 0 ∧ n / len * len * nh = n * h then
            some [n / len, len, nh]
          else none
      | _ => none
  | .dropout a _ _ => inferShape env a
  | .reshapeFlatten a =>
      match inferShape env a with
      | some [b, l, h] => some [b * l, h]
      | _ => none
  | .fullyConnected a _ _ nh =>
      match inferShape env a with
      | some [n, _] => some [n, nh]
      | _ => none
  | .reluAct a => inferShape env a
  | .reshapeTo3 a len nm =>
      match inferShape env a with
      | some [n, d] =>
          if 0 < len * nm ∧ n * d % (len * nm) = 0 then
            some [n * d / (len * nm), len, nm]
          else none
      | _ => none
  | .selfAttention a _ _ _ => inferShape env a
  | .selfAttentionBias a _ _ _ _ => inferShape env a
  | .crossAttention q _ _ _ _ _ => inferShape env q

/-- Whether a graph contains a `Dropout` node anywhere. -/
def Symb.hasDropout : Symb → Bool
  | .var _ => false
  | .plus a b _ => a.hasDropout || b.hasDropout
  | .reshapeMerge a _ => a.hasDropout
  | .layerNorm a _ => a.hasDropout
  | .reshapeSplit a _ _ _ => a.hasDropout
  | .dropout _ _ _ => true
  | .reshapeFlatten a => a.hasDropout
  | .fullyConnected a w b _ => a.hasDropout || w.hasDropout || b.hasDropout
  | .reluAct a => a.hasDropout
  | .reshapeTo3 a _ _ => a.hasDropout
  | .selfAttention a l _ _ => a.hasDropout || l.hasDropout
  | .selfAttentionBias a l b _ _ => a.hasDropout || l.hasDropout || b.hasDropout
  | .crossAttention q _ kv kvl _ _ => q.hasDropout || kv.hasDropout || kvl.hasDropout

/-- `TransformerConfig.__init__`: immutable hyperparameter bundle.  Dropout
rates are embedded as rationals; the two process sequences as lists of
characters.  `conv_config` has no structure used by this module, so it is
embedded as `Option Unit`. -/
structure TransformerConfig where
  model_size : ℕ
  attention_heads : ℕ
  feed_forward_num_hidden : ℕ
  num_layers : ℕ
  vocab_size : ℕ
  dropout_attention : ℚ
  dropout_relu : ℚ
  dropout_prepost : ℚ
  weight_tying : Bool
  positional_embedding_type : String
  preprocess_sequence : List Char
  postprocess_sequence : List Char
  max_seq_len_source : ℕ
  max_seq_len_target : ℕ
  conv_config : Option Unit
deriving DecidableEq, Repr

/-- `TransformerProcessBlock.__init__` state.  The `layer_norm` member of the
python class always carries the prefix `self.prefix ++ "norm"` when it
exists, so the normalization node's name is derived from `pfx` directly in
`reshape_and_normalize`. -/
structure TransformerProcessBlock where
  sequence : List Char
  num_hidden : ℕ
  dropout : ℚ
  pfx : String
deriving DecidableEq, Repr

/-- `TransformerProcessBlock._reshape_and_normalize`:
reshape `(-3, num_hidden)` → layer-normalize → reshape
`(-4, -1, length, num_hidden)` with name `prefix ++ "normalized"`. -/
def TransformerProcessBlock.reshape_and_normalize
    (pb : TransformerProcessBlock) (data : Symb) (length : ℕ) : Symb :=
  Symb.reshapeSplit
    (Symb.layerNorm (Symb.reshapeMerge data pb.num_hidden) (pb.pfx ++ "norm"))
    length pb.num_hidden (pb.pfx ++ "normalized")

/-- One iteration of the `for step in self.sequence` loop of
`TransformerProcessBlock.__call__`.  An `r` step with no previous value
cannot be reached in the python code (the assertion fires first); reaching
it would crash python, which we model as the same error. -/
def stepApply (pb : TransformerProcessBlock) (prev : Option Symb) (length : ℕ)
    (data : Symb) (step : Char) : Except TErr Symb :=
  if step = 'r' then
    match prev with
    | some p => Except.ok (Symb.plus data p (pb.pfx ++ "residual"))
    | none => Except.error TErr.residualNoPrev
  else if step = 'n' then
    Except.ok (pb.reshape_and_normalize data length)
  else if step = 'd' then
    if 0 < pb.dropout then
      Except.ok (Symb.dropout data pb.dropout (pb.pfx ++ "dropout"))
    else
      Except.ok data
  else
    Except.error (TErr.unknownStep step)

/-- The `for step in self.sequence` loop, threading `data` through the
steps and propagating the first error. -/
def runSteps (pb : TransformerProcessBlock) (prev : Option Symb) (length : ℕ) :
    Symb → List Char → Except TErr Symb
  | data, [] => Except.ok data
  | data, c :: cs =>
      match stepApply pb prev length data c with
      | Except.ok d => runSteps pb prev length d cs
      | Except.error e => Except.error e

/-- `TransformerProcessBlock.__call__`: empty sequence returns the input;
then the assertion `'r' not in self.sequence` when `prev is None`; then the
step loop. -/
def TransformerProcessBlock.call (pb : TransformerProcessBlock)
    (data : Symb) (prev : Option Symb) (length : ℕ) : Except TErr Symb :=
  if pb.sequence = [] then
    Except.ok data
  else if prev = none ∧ 'r' ∈ pb.sequence then
    Except.error TErr.residualNoPrev
  else
    runSteps pb prev length data pb.sequence

/-- `layers.MultiHeadSelfAttention.__init__` state (external collaborator;
only the pieces that reach the graph are kept). -/
structure MultiHeadSelfAttention where
  depth_att : ℕ
  heads : ℕ
  depth_out : ℕ
  dropout : ℚ
  pfx : String
deriving DecidableEq, Repr

/-- `layers.MultiHeadSelfAttention.__call__` with optional `bias`. -/
def MultiHeadSelfAttention.call (att : MultiHeadSelfAttention)
    (data lengths : Symb) (length : ℕ) (bias : Option Symb) : Symb :=
  match bias with
  | none => Symb.selfAttention data lengths length att.pfx
  | some b => Symb.selfAttentionBias data lengths b length att.pfx

/-- `layers.MultiHeadAttention.__init__` state (external collaborator). -/
structure MultiHeadAttention where
  depth_att : ℕ
  heads : ℕ
  depth_out : ℕ
  dropout : ℚ
  pfx : String
deriving DecidableEq, Repr

/-- `layers.MultiHeadAttention.__call__`: cross-attention with queries from
the first tensor and keys/values from the second. -/
def MultiHeadAttention.call (att : MultiHeadAttention) (q : Symb)
    (qLength : ℕ) (kv kvLengths : Symb) (kvLength : ℕ) : Symb :=
  Symb.crossAttention q qLength kv kvLengths kvLength att.pfx

/-- `TransformerFeedForward.__init__` state: the four parameter variables
are created once and persist across calls. -/
structure TransformerFeedForward where
  num_hidden : ℕ
  num_model : ℕ
  dropout : ℚ
  pfx : String
  w_i2h : Symb
  b_i2h : Symb
  w_h2o : Symb
  b_h2o : Symb
deriving DecidableEq, Repr

/-- `TransformerFeedForward` constructor: parameters are fresh variables
named from the prefix. -/
def mkTransformerFeedForward (num_hidden num_model : ℕ) (dropout : ℚ)
    (pfx : String) : TransformerFeedForward :=
  { num_hidden := num_hidden
    num_model := num_model
    dropout := dropout
    pfx := pfx
    w_i2h := Symb.var (pfx ++ "i2h_weight")
    b_i2h := Symb.var (pfx ++ "i2h_bias")
    w_h2o := Symb.var (pfx ++ "h2o_weight")
    b_h2o := Symb.var (pfx ++ "h2o_bias") }

/-- `TransformerFeedForward.__call__`: flatten `(-3, -1)`, project to
`num_hidden`, ReLU, dropout only when the rate is positive, project back to
`num_model`, reshape `(-1, length, num_model)`. -/
def TransformerFeedForward.call (ff : TransformerFeedForward)
    (x : Symb) (length : ℕ) : Symb :=
  let x1 := Symb.reshapeFlatten x
  let h1 := Symb.fullyConnected x1 ff.w_i2h ff.b_i2h ff.num_hidden
  let h2 := Symb.reluAct h1
  let h3 := if 0 < ff.dropout then Symb.dropout h2 ff.dropout "" else h2
  let y := Symb.fullyConnected h3 ff.w_h2o ff.b_h2o ff.num_model
  Symb.reshapeTo3 y length ff.num_model

/-- `TransformerEncoderBlock.__init__` state. -/
structure TransformerEncoderBlock where
  pre_self_attention : TransformerProcessBlock
  self_attention : MultiHeadSelfAttention
  post_self_attention : TransformerProcessBlock
  pre_ff : TransformerProcessBlock
  ff : TransformerFeedForward
  post_ff : TransformerProcessBlock
deriving DecidableEq, Repr

/-- `TransformerEncoderBlock.__init__`: sub-blocks built from the config
with the prefixes used in the source. -/
def mkTransformerEncoderBlock (config : TransformerConfig) (pfx : String) :
    TransformerEncoderBlock :=
  { pre_self_attention :=
      { sequence := config.preprocess_sequence
        num_hidden := config.model_size
        dropout := config.dropout_prepost
        pfx := pfx ++ "att_self_pre_" }
    self_attention :=
      { depth_att := config.model_size
        heads := config.attention_heads
        depth_out := config.model_size
        dropout := config.dropout_attention
        pfx := pfx ++ "att_self_" }
    post_self_attention :=
      { sequence := config.postprocess_sequence
        num_hidden := config.model_size
        dropout := config.dropout_prepost
        pfx := pfx ++ "att_self_post_" }
    pre_ff :=
      { sequence := config.preprocess_sequence
        num_hidden := config.model_size
        dropout := config.dropout_prepost
        pfx := pfx ++ "ff_pre_" }
    ff := mkTransformerFeedForward config.feed_forward_num_hidden
            config.model_size config.dropout_relu (pfx ++ "ff_")
    post_ff :=
      { sequence := config.postprocess_sequence
        num_hidden := config.model_size
        dropout := config.dropout_prepost
        pfx := pfx ++ "ff_post_" } }

/-- `TransformerEncoderBlock.__call__`: pre/self-attention/post, then
pre/feed-forward/post, residual previous being the stage input each time. -/
def TransformerEncoderBlock.call (blk : TransformerEncoderBlock)
    (data data_length : Symb) (length : ℕ) : Except TErr Symb :=
  match blk.pre_self_attention.call data none length with
  | Except.error e => Except.error e
  | Except.ok pre1 =>
    match blk.post_self_attention.call
        (blk.self_attention.call pre1 data_length length none) data length with
    | Except.error e => Except.error e
    | Except.ok data1 =>
      match blk.pre_ff.call data1 none length with
      | Except.error e => Except.error e
      | Except.ok pre2 =>
        blk.post_ff.call (blk.ff.call pre2 length) data1 length

/-- `TransformerDecoderBlock.__init__` state. -/
structure TransformerDecoderBlock where
  pre_self_attention : TransformerProcessBlock
  self_attention : MultiHeadSelfAttention
  post_self_attention : TransformerProcessBlock
  pre_enc_attention : TransformerProcessBlock
  enc_attention : MultiHeadAttention
  post_enc_attention : TransformerProcessBlock
  pre_ff : TransformerProcessBlock
  ff : TransformerFeedForward
  post_ff : TransformerProcessBlock
deriving DecidableEq, Repr

/-- `TransformerDecoderBlock.__init__`. -/
def mkTransformerDecoderBlock (config : TransformerConfig) (pfx : String) :
    TransformerDecoderBlock :=
  { pre_self_attention :=
      { sequence := config.preprocess_sequence
        num_hidden := config.model_size
        dropout := config.dropout_prepost
        pfx := pfx ++ "att_self_pre_" }
    self_attention :=
      { depth_att := config.model_size
        heads := config.attention_heads
        depth_out := config.model_size
        dropout := config.dropout_attention
        pfx := pfx ++ "att_self_" }
    post_self_attention :=
      { sequence := config.postprocess_sequence
        num_hidden := config.model_size
        dropout := config.dropout_prepost
        pfx := pfx ++ "att_self_post_" }
    pre_enc_attention :=
      { sequence := config.preprocess_sequence
        num_hidden := config.model_size
        dropout := config.dropout_prepost
        pfx := pfx ++ "att_enc_pre_" }
    enc_attention :=
      { depth_att := config.model_size
        heads := config.attention_heads
        depth_out := config.model_size
        dropout := config.dropout_attention
        pfx := pfx ++ "att_enc_" }
    post_enc_attention :=
      { sequence := config.postprocess_sequence
        num_hidden := config.model_size
        dropout := config.dropout_prepost
        pfx := pfx ++ "att_enc_post_" }
    pre_ff :=
      { sequence := config.preprocess_sequence
        num_hidden := config.model_size
        dropout := config.dropout_prepost
        pfx := pfx ++ "ff_pre_" }
    ff := mkTransformerFeedForward config.feed_forward_num_hidden
            config.model_size config.dropout_relu (pfx ++ "ff_")
    post_ff :=
      { sequence := config.postprocess_sequence
        num_hidden := config.model_size
        dropout := config.dropout_prepost
        pfx := pfx ++ "ff_post_" } }

/-- `TransformerDecoderBlock.__call__`: self-attention (with the causal
`target_bias`), encoder attention, feed-forward, each wrapped by pre/post
process blocks. -/
def TransformerDecoderBlock.call (blk : TransformerDecoderBlock)
    (target target_lengths : Symb) (target_max_length : ℕ)
    (target_bias : Symb) (source source_lengths : Symb)
    (source_max_length : ℕ) : Except TErr Symb :=
  match blk.pre_self_attention.call target none target_max_length with
  | Except.error e => Except.error e
  | Except.ok pre1 =>
    match blk.post_self_attention.call
        (blk.self_attention.call pre1 target_lengths target_max_length
          (some target_bias)) target target_max_length with
    | Except.error e => Except.error e
    | Except.ok target1 =>
      match blk.pre_enc_attention.call target1 none target_max_length with
      | Except.error e => Except.error e
      | Except.ok pre2 =>
        match blk.post_enc_attention.call
            (blk.enc_attention.call pre2 target_max_length source source_lengths
              source_max_length) target1 target_max_length with
        | Except.error e => Except.error e
        | Except.ok target2 =>
          match blk.pre_ff.call target2 none target_max_length with
          | Except.error e => Except.error e
          | Except.ok pre3 =>
            blk.post_ff.call (blk.ff.call pre3 target_max_length) target2
              target_max_length

/-- `np.triu(np.ones((length, length)), k=1)`: entry `(i, j)` is `1` when
`j ≥ i + 1` and `0` otherwise. -/
def triuOnes (length : ℕ) : List (List ℚ) :=
  (List.range length).map fun i =>
    (List.range length).map fun j => if i + 1 ≤ j then 1 else 0

/-- `AutoRegressiveBias.get_bias`: reshape the upper-triangle matrix to
`(1, length, length)` and scale by `-99999999`. -/
def get_bias (length : ℕ) : List (List (List ℚ)) :=
  [(triuOnes length).map (List.map fun x => -99999999 * x)]

/-- Entry `(0, i, j)` of the bias tensor (default `0` out of range). -/
def biasEntry (length i j : ℕ) : ℚ :=
  (((get_bias length).getD 0 []).getD i []).getD j 0

/-- `AutoRegressiveBiasProp.infer_shape`: output shape `(1, length, length)`. -/
def autoRegressiveBiasInferShape (length : ℕ) : List ℕ :=
  [1, length, length]

/-! ### Helper lemmas -/

/-- A step other than `r` never looks at `prev`. -/
theorem stepApply_prev_indep (pb : TransformerProcessBlock) (p1 p2 : Option Symb)
    (length : ℕ) (data : Symb) (c : Char) (hc : c ≠ 'r') :
    stepApply pb p1 length data c = stepApply pb p2 length data c := by
  simp [stepApply, hc]

/-- The step loop ignores `prev` when the sequence has no `r`. -/
theorem runSteps_prev_indep (pb : TransformerProcessBlock) (p1 p2 : Option Symb)
    (L : ℕ) : ∀ (seq : List Char) (data : Symb), 'r' ∉ seq →
    runSteps pb p1 L data seq = runSteps pb p2 L data seq := by
  intro seq
  induction seq with
  | nil => intro data _; rfl
  | cons c cs ih =>
      intro data h
      rw [List.mem_cons, not_or] at h
      obtain ⟨h1, h2⟩ := h
      have hc : c ≠ 'r' := fun he => h1 he.symm
      simp only [runSteps]
      rw [stepApply_prev_indep pb p1 p2 L data c hc]
      cases hsa : stepApply pb p2 L data c with
      | ok d => simp only [hsa]; exact ih d h2
      | error e => simp only [hsa]

/-- If the sequence contains a step outside `{n, r, d}` and every `r` has a
previous value available, the loop ends in an unknown-step error. -/
theorem runSteps_unknown_step (pb : TransformerProcessBlock) (prev : Option Symb)
    (L : ℕ) : ∀ (seq : List Char) (data : Symb),
    (∃ c ∈ seq, c ≠ 'n' ∧ c ≠ 'r' ∧ c ≠ 'd') →
    ('r' ∈ seq → ∃ p, prev = some p) →
    ∃ c, (c ≠ 'n' ∧ c ≠ 'r' ∧ c ≠ 'd') ∧
      runSteps pb prev L data seq = Except.error (TErr.unknownStep c) := by
  intro seq
  induction seq with
  | nil =>
      intro data h _
      obtain ⟨c, hc, _⟩ := h
      cases hc
  | cons c cs ih =>
      intro data h hr
      by_cases hv : c = 'n' ∨ c = 'r' ∨ c = 'd'
      · have hstep : ∃ d, stepApply pb prev L data c = Except.ok d := by
          rcases hv with h1 | h1 | h1 <;> subst h1
          · exact ⟨pb.reshape_and_normalize data L, rfl⟩
          · obtain ⟨p, hp⟩ := hr (List.mem_cons_self _ _)
            exact ⟨Symb.plus data p (pb.pfx ++ "residual"), by rw [hp]; rfl⟩
          · by_cases hd : 0 < pb.dropout
            · exact ⟨Symb.dropout data pb.dropout (pb.pfx ++ "dropout"),
                by simp [stepApply, hd]⟩
            · exact ⟨data, by simp [stepApply, hd]⟩
        obtain ⟨d, hd⟩ := hstep
        obtain ⟨c0, hc0, hbad⟩ := h
        have hc0cs : c0 ∈ cs := by
          rcases List.mem_cons.mp hc0 with he | hcs
          · exfalso
            rcases hv with h1 | h1 | h1 <;> rw [he, h1] at hbad <;> simp at hbad
          · exact hcs
        obtain ⟨c1, hb1, heq⟩ :=
          ih d ⟨c0, hc0cs, hbad⟩ (fun hrm => hr (List.mem_cons_of_mem _ hrm))
        refine ⟨c1, hb1, ?_⟩
        simp only [runSteps, hd]
        exact heq
      · push_neg at hv
        refine ⟨c, ⟨hv.1, hv.2.1, hv.2.2⟩, ?_⟩
        simp only [runSteps, stepApply, hv.1, hv.2.1, hv.2.2, if_false]

/-! ### Claims about `TransformerProcessBlock` -/

/-- C3: with the empty processing sequence, `TransformerProcessBlock.__call__`
returns its input unchanged, for any `prev` and any `length`. -/
theorem processBlock_empty_sequence_identity (pb : TransformerProcessBlock)
    (data : Symb) (prev : Option Symb) (length : ℕ) (h : pb.sequence = []) :
    pb.call data prev length = Except.ok data := by
  simp [TransformerProcessBlock.call, h]

theorem processBlock_empty_sequence_identity_witness :
    TransformerProcessBlock.call ⟨[], 4, 0, "p_"⟩ (Symb.var "x") none 3 =
      Except.ok (Symb.var "x") :=
  processBlock_empty_sequence_identity ⟨[], 4, 0, "p_"⟩ (Symb.var "x") none 3 rfl

/-- C2: if the sequence contains `r` and no previous value is given, the call
fails with the residual-connection assertion, before the step loop runs,
whatever the other characters and wherever `r` sits. -/
theorem processBlock_residual_requires_prev (pb : TransformerProcessBlock)
    (data : Symb) (length : ℕ) (h : 'r' ∈ pb.sequence) :
    pb.call data none length = Except.error TErr.residualNoPrev := by
  have hne : pb.sequence ≠ [] := by
    intro he
    rw [he] at h
    cases h
  simp [TransformerProcessBlock.call, hne, h]

theorem processBlock_residual_requires_prev_witness :
    TransformerProcessBlock.call ⟨['x', 'r'], 4, 0, "p_"⟩ (Symb.var "x") none 3 =
      Except.error TErr.residualNoPrev :=
  processBlock_residual_requires_prev ⟨['x', 'r'], 4, 0, "p_"⟩ (Symb.var "x") 3
    (by decide)

/-- C4: a `d` step with dropout rate exactly `0` is a true no-op — the call
returns the input graph itself, with no dropout node; a dropout node is
added exactly when the rate is strictly positive. -/
theorem processBlock_dropout_zero_noop (pb : TransformerProcessBlock)
    (data : Symb) (prev : Option Symb) (length : ℕ) (h : pb.sequence = ['d']) :
    (pb.dropout = 0 → pb.call data prev length = Except.ok data) ∧
      (0 < pb.dropout →
        pb.call data prev length =
          Except.ok (Symb.dropout data pb.dropout (pb.pfx ++ "dropout"))) := by
  constructor
  · intro h0
    simp [TransformerProcessBlock.call, h, runSteps, stepApply, h0]
  · intro h0
    simp [TransformerProcessBlock.call, h, runSteps, stepApply, h0]

theorem processBlock_dropout_zero_noop_witness :
    TransformerProcessBlock.call ⟨['d'], 4, 0, "p_"⟩ (Symb.var "x") none 3 =
      Except.ok (Symb.var "x") :=
  (processBlock_dropout_zero_noop ⟨['d'], 4, 0, "p_"⟩ (Symb.var "x") none 3 rfl).1 rfl

/-- C6: a sequence containing a character outside `{n, r, d}` makes the call
fail on first use, deterministically, with no partial result: the error is
the unknown-step ValueError, except when the residual assertion (`r` with no
previous value) preempts it. -/
theorem processBlock_unknown_step_errors (pb : TransformerProcessBlock)
    (data : Symb) (prev : Option Symb) (L : ℕ) (c : Char)
    (hc : c ∈ pb.sequence) (hbad : c ≠ 'n' ∧ c ≠ 'r' ∧ c ≠ 'd') :
    ∃ e, pb.call data prev L = Except.error e ∧
      ((prev = none ∧ 'r' ∈ pb.sequence) ∨
        ∃ c0, (c0 ≠ 'n' ∧ c0 ≠ 'r' ∧ c0 ≠ 'd') ∧ e = TErr.unknownStep c0) := by
  have hne : pb.sequence ≠ [] := by
    intro he
    rw [he] at hc
    cases hc
  by_cases hg : prev = none ∧ 'r' ∈ pb.sequence
  · exact ⟨TErr.residualNoPrev,
      by simp [TransformerProcessBlock.call, hne, hg], Or.inl hg⟩
  · have hr : 'r' ∈ pb.sequence → ∃ p, prev = some p := by
      intro hrm
      cases hp : prev with
      | none => exact absurd ⟨hp, hrm⟩ hg
      | some p => exact ⟨p, rfl⟩
    obtain ⟨c0, hb0, heq⟩ :=
      runSteps_unknown_step pb prev L pb.sequence data ⟨c, hc, hbad⟩ hr
    exact ⟨TErr.unknownStep c0,
      by simp [TransformerProcessBlock.call, hne, hg, heq], Or.inr ⟨c0, hb0, rfl⟩⟩

theorem processBlock_unknown_step_errors_witness :
    ∃ e, TransformerProcessBlock.call ⟨['n', 'x'], 4, 0, "p_"⟩ (Symb.var "v") none 3 =
        Except.error e ∧
      ((none = (none : Option Symb) ∧ 'r' ∈ ['n', 'x']) ∨
        ∃ c0, (c0 ≠ 'n' ∧ c0 ≠ 'r' ∧ c0 ≠ 'd') ∧ e = TErr.unknownStep c0) :=
  processBlock_unknown_step_errors ⟨['n', 'x'], 4, 0, "p_"⟩ (Symb.var "v") none 3 'x'
    (by decide) (by decide)

/-- C10: when the sequence contains no `r`, the call result does not depend
on `prev` at all: any two `prev` values (including `none`) give the same
result. -/
theorem processBlock_prev_independent_without_r (pb : TransformerProcessBlock)
    (data : Symb) (p1 p2 : Option Symb) (L : ℕ) (h : 'r' ∉ pb.sequence) :
    pb.call data p1 L = pb.call data p2 L := by
  unfold TransformerProcessBlock.call
  have h1 : ¬(p1 = none ∧ 'r' ∈ pb.sequence) := fun hh => h hh.2
  have h2 : ¬(p2 = none ∧ 'r' ∈ pb.sequence) := fun hh => h hh.2
  by_cases he : pb.sequence = []
  · simp [he]
  · simp only [he, h1, h2, if_false]
    exact runSteps_prev_indep pb p1 p2 L pb.sequence data h

theorem processBlock_prev_independent_without_r_witness :
    TransformerProcessBlock.call ⟨['n', 'd'], 4, 0, "p_"⟩ (Symb.var "x") none 3 =
      TransformerProcessBlock.call ⟨['n', 'd'], 4, 0, "p_"⟩ (Symb.var "x")
        (some (Symb.var "y")) 3 :=
  processBlock_prev_independent_without_r ⟨['n', 'd'], 4, 0, "p_"⟩ (Symb.var "x")
    none (some (Symb.var "y")) 3 (by decide)

/-! ### Claim about the autoregressive bias -/

/-- `getD` on a mapped range picks out the function value. -/
theorem range_map_getD {α : Type} (f : ℕ → α) (n i : ℕ) (d : α) (h : i < n) :
    ((List.range n).map f).getD i d = f i := by
  rw [List.getD_eq_getElem?_getD, List.getElem?_map, List.getElem?_range h]
  rfl

/-- Every entry of the bias tensor is `-99999999` times the corresponding
upper-triangle indicator. -/
theorem biasEntry_eq (L i j : ℕ) (hi : i < L) (hj : j < L) :
    biasEntry L i j = -99999999 * (if i + 1 ≤ j then (1 : ℚ) else 0) := by
  unfold biasEntry get_bias triuOnes
  rw [List.getD_cons_zero, List.map_map, range_map_getD _ L i _ hi]
  simp only [Function.comp_apply, List.map_map]
  rw [range_map_getD _ L j _ hj]
  rfl

/-- C1: for every `length ≥ 1`, `AutoRegressiveBias.get_bias(length)` has
shape `(1, length, length)` (as `AutoRegressiveBiasProp.infer_shape`
declares); entries strictly above the diagonal equal `-99999999`, all other
entries equal `0`; and `get_bias 1` is the `1 × 1` zero matrix. -/
theorem autoregressive_bias_triangular (L : ℕ) (hL : 1 ≤ L) :
    (get_bias L).length = 1 ∧
    (∀ m ∈ get_bias L, m.length = L ∧ ∀ row ∈ m, row.length = L) ∧
    autoRegressiveBiasInferShape L = [1, L, L] ∧
    (∀ i j, i < L → j < L → i < j → biasEntry L i j = -99999999) ∧
    (∀ i j, i < L → j < L → j ≤ i → biasEntry L i j = 0) ∧
    get_bias 1 = [[[0]]] := by
  refine ⟨rfl, ?_, rfl, ?_, ?_, ?_⟩
  · intro m hm
    rw [get_bias, List.mem_singleton] at hm
    subst hm
    constructor
    · simp [triuOnes]
    · intro row hrow
      simp only [triuOnes, List.map_map, List.mem_map, List.mem_range] at hrow
      obtain ⟨i, _, hrow⟩ := hrow
      rw [← hrow]
      simp
  · intro i j hi hj hij
    rw [biasEntry_eq L i j hi hj, if_pos (show i + 1 ≤ j by omega)]
    norm_num
  · intro i j hi hj hji
    rw [biasEntry_eq L i j hi hj, if_neg (by omega)]
    norm_num
  · norm_num [get_bias, triuOnes, List.range_succ]

theorem autoregressive_bias_triangular_witness :
    (1 ≤ 4) ∧
      ((get_bias 4).length = 1 ∧
        (∀ m ∈ get_bias 4, m.length = 4 ∧ ∀ row ∈ m, row.length = 4) ∧
        autoRegressiveBiasInferShape 4 = [1, 4, 4] ∧
        (∀ i j, i < 4 → j < 4 → i < j → biasEntry 4 i j = -99999999) ∧
        (∀ i j, i < 4 → j < 4 → j ≤ i → biasEntry 4 i j = 0) ∧
        get_bias 1 = [[[0]]]) :=
  ⟨by decide, autoregressive_bias_triangular 4 (by decide)⟩

/-! ### Shape preservation lemmas -/

/-- The reshape–normalize–reshape round trip of `_reshape_and_normalize` is
lossless: it restores exactly the input shape `(b, L, num_hidden)`. -/
theorem reshape_and_normalize_shape (env : String → Option (List ℕ))
    (pb : TransformerProcessBlock) (data : Symb) (b L : ℕ) (hL : 0 < L)
    (hdata : inferShape env data = some [b, L, pb.num_hidden]) :
    inferShape env (pb.reshape_and_normalize data L) =
      some [b, L, pb.num_hidden] := by
  have h1 : b * L % L = 0 := Nat.mul_mod_left b L
  have h2 : b * L / L = b := Nat.mul_div_cancel b hL
  simp [TransformerProcessBlock.reshape_and_normalize, inferShape, hdata, h1, h2, hL]

/-- Each step preserves the shape `(b, L, num_hidden)` and succeeds, as long
as `r` steps have a previous value of that shape available. -/
theorem runSteps_shape (env : String → Option (List ℕ))
    (pb : TransformerProcessBlock) (prev : Option Symb) (L b : ℕ) (hL : 0 < L)
    (hprev : ∀ p, prev = some p → inferShape env p = some [b, L, pb.num_hidden]) :
    ∀ (seq : List Char) (data : Symb),
      (∀ c ∈ seq, c = 'n' ∨ c = 'r' ∨ c = 'd') →
      ('r' ∈ seq → ∃ p, prev = some p) →
      inferShape env data = some [b, L, pb.num_hidden] →
      ∃ y, runSteps pb prev L data seq = Except.ok y ∧
        inferShape env y = some [b, L, pb.num_hidden] := by
  intro seq
  induction seq with
  | nil => intro data _ _ hdata; exact ⟨data, rfl, hdata⟩
  | cons c cs ih =>
      intro data hvalid hr hdata
      have hc := hvalid c (List.mem_cons_self c cs)
      have hstep : ∃ d, stepApply pb prev L data c = Except.ok d ∧
          inferShape env d = some [b, L, pb.num_hidden] := by
        rcases hc with h1 | h1 | h1 <;> subst h1
        · exact ⟨pb.reshape_and_normalize data L, rfl,
            reshape_and_normalize_shape env pb data b L hL hdata⟩
        · obtain ⟨p, hp⟩ := hr (List.mem_cons_self _ _)
          refine ⟨Symb.plus data p (pb.pfx ++ "residual"), by rw [hp]; rfl, ?_⟩
          simp [inferShape, hdata, hprev p hp]
        · by_cases hd : 0 < pb.dropout
          · exact ⟨Symb.dropout data pb.dropout (pb.pfx ++ "dropout"),
              by simp [stepApply, hd], by simp [inferShape, hdata]⟩
          · exact ⟨data, by simp [stepApply, hd], hdata⟩
      obtain ⟨d, hd, hds⟩ := hstep
      obtain ⟨y, hy, hys⟩ :=
        ih d (fun c0 h0 => hvalid c0 (List.mem_cons_of_mem _ h0))
          (fun hrm => hr (List.mem_cons_of_mem _ hrm)) hds
      refine ⟨y, ?_, hys⟩
      simp only [runSteps, hd]
      exact hy

/-- `TransformerProcessBlock.__call__` succeeds and preserves the shape
`(b, L, num_hidden)` whenever the sequence uses only known steps and `r`
steps have a previous value of that shape. -/
theorem processBlock_call_shape (env : String → Option (List ℕ))
    (pb : TransformerProcessBlock) (data : Symb) (prev : Option Symb)
    (L b : ℕ) (hL : 0 < L)
    (hdata : inferShape env data = some [b, L, pb.num_hidden])
    (hprev : ∀ p, prev = some p → inferShape env p = some [b, L, pb.num_hidden])
    (hvalid : ∀ c ∈ pb.sequence, c = 'n' ∨ c = 'r' ∨ c = 'd')
    (hr : 'r' ∈ pb.sequence → ∃ p, prev = some p) :
    ∃ y, pb.call data prev L = Except.ok y ∧
      inferShape env y = some [b, L, pb.num_hidden] := by
  by_cases hne : pb.sequence = []
  · exact ⟨data, by simp [TransformerProcessBlock.call, hne], hdata⟩
  · have hg : ¬(prev = none ∧ 'r' ∈ pb.sequence) := by
      rintro ⟨h1, h2⟩
      obtain ⟨p, hp⟩ := hr h2
      rw [h1] at hp
      cases hp
    obtain ⟨y, hy, hys⟩ :=
      runSteps_shape env pb prev L b hL hprev pb.sequence data hvalid hr hdata
    refine ⟨y, ?_, hys⟩
    simp only [TransformerProcessBlock.call, hne, hg, if_false]
    exact hy

/-! ### Claim C5: the `n` step round trip -/

/-- C5: with sequence `"n"`, the call flattens batch and position into one
axis (the intermediate shape is `(b * L, num_hidden)`), layer-normalizes,
and restores exactly the input shape, the position dimension being the
`length` parameter. -/
theorem processBlock_normalize_shape (env : String → Option (List ℕ))
    (pb : TransformerProcessBlock) (data : Symb) (prev : Option Symb)
    (b L : ℕ) (hseq : pb.sequence = ['n']) (hL : 0 < L)
    (hdata : inferShape env data = some [b, L, pb.num_hidden]) :
    inferShape env (Symb.reshapeMerge data pb.num_hidden) =
        some [b * L, pb.num_hidden] ∧
      pb.call data prev L = Except.ok (pb.reshape_and_normalize data L) ∧
      inferShape env (pb.reshape_and_normalize data L) =
        some [b, L, pb.num_hidden] := by
  refine ⟨?_, ?_, reshape_and_normalize_shape env pb data b L hL hdata⟩
  · simp [inferShape, hdata]
  · simp [TransformerProcessBlock.call, hseq, runSteps, stepApply]

theorem processBlock_normalize_shape_witness :
    inferShape (fun n => if n = "x" then some [2, 3, 4] else none)
        (Symb.reshapeMerge (Symb.var "x") 4) = some [6, 4] ∧
      TransformerProcessBlock.call ⟨['n'], 4, 0, "p_"⟩ (Symb.var "x") none 3 =
        Except.ok (TransformerProcessBlock.reshape_and_normalize ⟨['n'], 4, 0, "p_"⟩
          (Symb.var "x") 3) ∧
      inferShape (fun n => if n = "x" then some [2, 3, 4] else none)
        (TransformerProcessBlock.reshape_and_normalize ⟨['n'], 4, 0, "p_"⟩
          (Symb.var "x") 3) = some [2, 3, 4] :=
  processBlock_normalize_shape (fun n => if n = "x" then some [2, 3, 4] else none)
    ⟨['n'], 4, 0, "p_"⟩ (Symb.var "x") none 2 3 rfl (by decide) (by decide)

/-! ### Claim C9: the feed-forward network -/

/-- `TransformerFeedForward.__call__` maps any `(b, L, h)` input to a
`(b, L, num_model)` output. -/
theorem feedForward_call_shape (env : String → Option (List ℕ))
    (ff : TransformerFeedForward) (x : Symb) (b L h : ℕ)
    (hL : 0 < L) (hm : 0 < ff.num_model)
    (hx : inferShape env x = some [b, L, h]) :
    inferShape env (ff.call x L) = some [b, L, ff.num_model] := by
  have h0 : 0 < L * ff.num_model := Nat.mul_pos hL hm
  have h1 : b * L * ff.num_model % (L * ff.num_model) = 0 := by
    rw [Nat.mul_assoc]
    exact Nat.mul_mod_left b (L * ff.num_model)
  have h2 : b * L * ff.num_model / (L * ff.num_model) = b := by
    rw [Nat.mul_assoc]
    exact Nat.mul_div_cancel b h0
  by_cases hd : 0 < ff.dropout
  · simp [TransformerFeedForward.call, inferShape, hx, hd, h0, h1, h2]
  · simp [TransformerFeedForward.call, inferShape, hx, hd, h0, h1, h2]

/-- C9: `TransformerFeedForward.__call__` flattens `(batch, length)` into
one axis, projects to the hidden size, applies ReLU, adds a dropout node
exactly when the rate is strictly positive, projects back to the model
size, and restores the `(batch, length, num_model)` shape — so the output
shape equals the input shape. -/
theorem feedForward_pipeline (env : String → Option (List ℕ))
    (nh nm : ℕ) (rate : ℚ) (pfx : String) (x : Symb) (b L : ℕ)
    (hL : 0 < L) (hm : 0 < nm)
    (hx : inferShape env x = some [b, L, nm]) :
    inferShape env ((mkTransformerFeedForward nh nm rate pfx).call x L) =
        some [b, L, nm] ∧
      ((mkTransformerFeedForward nh nm rate pfx).call x L).hasDropout =
        (x.hasDropout || decide (0 < rate)) := by
  refine ⟨feedForward_call_shape env (mkTransformerFeedForward nh nm rate pfx)
    x b L nm hL hm hx, ?_⟩
  by_cases hd : 0 < rate
  · simp [TransformerFeedForward.call, mkTransformerFeedForward,
      Symb.hasDropout, hd]
  · simp [TransformerFeedForward.call, mkTransformerFeedForward,
      Symb.hasDropout, hd]

theorem feedForward_pipeline_witness :
    inferShape (fun n => if n = "x" then some [2, 3, 4] else none)
        ((mkTransformerFeedForward 8 4 0 "ff_").call (Symb.var "x") 3) =
        some [2, 3, 4] ∧
      ((mkTransformerFeedForward 8 4 0 "ff_").call (Symb.var "x") 3).hasDropout =
        ((Symb.var "x").hasDropout || decide ((0 : ℚ) < 0)) :=
  feedForward_pipeline (fun n => if n = "x" then some [2, 3, 4] else none)
    8 4 0 "ff_" (Symb.var "x") 2 3 (by decide) (by decide) (by decide)

/-! ### Claim C7: the encoder block pipeline -/

/-- C7: `TransformerEncoderBlock.__call__` is exactly the six-step pipeline
pre-process (no previous) → self-attention → post-process (previous = the
block input) → pre-process (no previous) → feed-forward → post-process
(previous = the self-attention stage output), and the result has the shape
of the input. -/
theorem encoderBlock_pipeline (env : String → Option (List ℕ))
    (cfg : TransformerConfig) (p : String) (data data_length : Symb)
    (L b : ℕ) (hL : 0 < L) (hm : 0 < cfg.model_size)
    (hpre : ∀ c ∈ cfg.preprocess_sequence, c = 'n' ∨ c = 'r' ∨ c = 'd')
    (hpost : ∀ c ∈ cfg.postprocess_sequence, c = 'n' ∨ c = 'r' ∨ c = 'd')
    (hnor : 'r' ∉ cfg.preprocess_sequence)
    (hdata : inferShape env data = some [b, L, cfg.model_size]) :
    ∃ a1 d1 a2 y,
      (mkTransformerEncoderBlock cfg p).pre_self_attention.call data none L =
          Except.ok a1 ∧
        (mkTransformerEncoderBlock cfg p).post_self_attention.call
          ((mkTransformerEncoderBlock cfg p).self_attention.call a1 data_length L
            none) data L = Except.ok d1 ∧
        (mkTransformerEncoderBlock cfg p).pre_ff.call d1 none L = Except.ok a2 ∧
        (mkTransformerEncoderBlock cfg p).post_ff.call
          ((mkTransformerEncoderBlock cfg p).ff.call a2 L) d1 L = Except.ok y ∧
        (mkTransformerEncoderBlock cfg p).call data data_length L = Except.ok y ∧
        inferShape env y = some [b, L, cfg.model_size] := by
  obtain ⟨a1, h1, hs1⟩ :=
    processBlock_call_shape env (mkTransformerEncoderBlock cfg p).pre_self_attention
      data none L b hL hdata (fun q hq => by cases hq) hpre
      (fun hmem => absurd hmem hnor)
  have hatt : inferShape env
      ((mkTransformerEncoderBlock cfg p).self_attention.call a1 data_length L none) =
      inferShape env a1 := rfl
  obtain ⟨d1, h2, hs2⟩ :=
    processBlock_call_shape env (mkTransformerEncoderBlock cfg p).post_self_attention
      ((mkTransformerEncoderBlock cfg p).self_attention.call a1 data_length L none)
      (some data) L b hL (hatt.trans hs1)
      (fun q hq => Option.some.inj hq ▸ hdata) hpost (fun _ => ⟨data, rfl⟩)
  obtain ⟨a2, h3, hs3⟩ :=
    processBlock_call_shape env (mkTransformerEncoderBlock cfg p).pre_ff
      d1 none L b hL hs2 (fun q hq => by cases hq) hpre
      (fun hmem => absurd hmem hnor)
  have hffs : inferShape env ((mkTransformerEncoderBlock cfg p).ff.call a2 L) =
      some [b, L, cfg.model_size] :=
    feedForward_call_shape env (mkTransformerEncoderBlock cfg p).ff a2 b L
      cfg.model_size hL hm hs3
  obtain ⟨y, h4, hs4⟩ :=
    processBlock_call_shape env (mkTransformerEncoderBlock cfg p).post_ff
      ((mkTransformerEncoderBlock cfg p).ff.call a2 L)
      (some d1) L b hL hffs
      (fun q hq => Option.some.inj hq ▸ hs2) hpost (fun _ => ⟨d1, rfl⟩)
  refine ⟨a1, d1, a2, y, h1, h2, h3, h4, ?_, hs4⟩
  simp only [TransformerEncoderBlock.call, h1, h2, h3, h4]

theorem encoderBlock_pipeline_witness :
    ∃ a1 d1 a2 y,
      (mkTransformerEncoderBlock
            ⟨4, 2, 8, 1, 10, 0, 0, 0, false, "f", ['n'], ['d', 'r', 'n'], 10, 10,
              none⟩ "e_").pre_self_attention.call (Symb.var "x") none 3 =
          Except.ok a1 ∧
        (mkTransformerEncoderBlock
            ⟨4, 2, 8, 1, 10, 0, 0, 0, false, "f", ['n'], ['d', 'r', 'n'], 10, 10,
              none⟩ "e_").post_self_attention.call
          ((mkTransformerEncoderBlock
            ⟨4, 2, 8, 1, 10, 0, 0, 0, false, "f", ['n'], ['d', 'r', 'n'], 10, 10,
              none⟩ "e_").self_attention.call a1 (Symb.var "xl") 3 none)
          (Symb.var "x") 3 = Except.ok d1 ∧
        (mkTransformerEncoderBlock
            ⟨4, 2, 8, 1, 10, 0, 0, 0, false, "f", ['n'], ['d', 'r', 'n'], 10, 10,
              none⟩ "e_").pre_ff.call d1 none 3 = Except.ok a2 ∧
        (mkTransformerEncoderBlock
            ⟨4, 2, 8, 1, 10, 0, 0, 0, false, "f", ['n'], ['d', 'r', 'n'], 10, 10,
              none⟩ "e_").post_ff.call
          ((mkTransformerEncoderBlock
            ⟨4, 2, 8, 1, 10, 0, 0, 0, false, "f", ['n'], ['d', 'r', 'n'], 10, 10,
              none⟩ "e_").ff.call a2 3) d1 3 = Except.ok y ∧
        (mkTransformerEncoderBlock
            ⟨4, 2, 8, 1, 10, 0, 0, 0, false, "f", ['n'], ['d', 'r', 'n'], 10, 10,
              none⟩ "e_").call (Symb.var "x") (Symb.var "xl") 3 = Except.ok y ∧
        inferShape (fun n => if n = "x" then some [2, 3, 4] else none) y =
          some [2, 3, 4] :=
  encoderBlock_pipeline (fun n => if n = "x" then some [2, 3, 4] else none)
    ⟨4, 2, 8, 1, 10, 0, 0, 0, false, "f", ['n'], ['d', 'r', 'n'], 10, 10, none⟩
    "e_" (Symb.var "x") (Symb.var "xl") 3 2 (by decide) (by decide) (by decide)
    (by decide) (by decide) (by decide)

/-! ### Claim C8: the decoder block pipeline -/

/-- C8: `TransformerDecoderBlock.__call__` is the encoder pipeline with a
cross-attention stage inserted between self-attention and feed-forward: the
causal `target_bias` is passed to the self-attention call (the only call
taking a bias), cross-attention takes the target-side tensor as queries and
the source tensor as keys/values, each post-process stage receives its
stage input as residual previous, and the result has the shape of the input
target. -/
theorem decoderBlock_pipeline (env : String → Option (List ℕ))
    (cfg : TransformerConfig) (p : String)
    (target target_lengths target_bias source source_lengths : Symb)
    (tL sL b : ℕ) (hL : 0 < tL) (hm : 0 < cfg.model_size)
    (hpre : ∀ c ∈ cfg.preprocess_sequence, c = 'n' ∨ c = 'r' ∨ c = 'd')
    (hpost : ∀ c ∈ cfg.postprocess_sequence, c = 'n' ∨ c = 'r' ∨ c = 'd')
    (hnor : 'r' ∉ cfg.preprocess_sequence)
    (htarget : inferShape env target = some [b, tL, cfg.model_size]) :
    ∃ a1 t1 a2 t2 a3 y,
      (mkTransformerDecoderBlock cfg p).pre_self_attention.call target none tL =
          Except.ok a1 ∧
        (mkTransformerDecoderBlock cfg p).post_self_attention.call
          ((mkTransformerDecoderBlock cfg p).self_attention.call a1 target_lengths
            tL (some target_bias)) target tL = Except.ok t1 ∧
        (mkTransformerDecoderBlock cfg p).pre_enc_attention.call t1 none tL =
          Except.ok a2 ∧
        (mkTransformerDecoderBlock cfg p).post_enc_attention.call
          ((mkTransformerDecoderBlock cfg p).enc_attention.call a2 tL source
            source_lengths sL) t1 tL = Except.ok t2 ∧
        (mkTransformerDecoderBlock cfg p).pre_ff.call t2 none tL = Except.ok a3 ∧
        (mkTransformerDecoderBlock cfg p).post_ff.call
          ((mkTransformerDecoderBlock cfg p).ff.call a3 tL) t2 tL = Except.ok y ∧
        (mkTransformerDecoderBlock cfg p).call target target_lengths tL
          target_bias source source_lengths sL = Except.ok y ∧
        inferShape env y = some [b, tL, cfg.model_size] := by
  obtain ⟨a1, h1, hs1⟩ :=
    processBlock_call_shape env (mkTransformerDecoderBlock cfg p).pre_self_attention
      target none tL b hL htarget (fun q hq => by cases hq) hpre
      (fun hmem => absurd hmem hnor)
  have hatt : inferShape env
      ((mkTransformerDecoderBlock cfg p).self_attention.call a1 target_lengths tL
        (some target_bias)) = inferShape env a1 := rfl
  obtain ⟨t1, h2, hs2⟩ :=
    processBlock_call_shape env (mkTransformerDecoderBlock cfg p).post_self_attention
      ((mkTransformerDecoderBlock cfg p).self_attention.call a1 target_lengths tL
        (some target_bias))
      (some target) tL b hL (hatt.trans hs1)
      (fun q hq => Option.some.inj hq ▸ htarget) hpost (fun _ => ⟨target, rfl⟩)
  obtain ⟨a2, h3, hs3⟩ :=
    processBlock_call_shape env (mkTransformerDecoderBlock cfg p).pre_enc_attention
      t1 none tL b hL hs2 (fun q hq => by cases hq) hpre
      (fun hmem => absurd hmem hnor)
  have hcross : inferShape env
      ((mkTransformerDecoderBlock cfg p).enc_attention.call a2 tL source
        source_lengths sL) = inferShape env a2 := rfl
  obtain ⟨t2, h4, hs4⟩ :=
    processBlock_call_shape env (mkTransformerDecoderBlock cfg p).post_enc_attention
      ((mkTransformerDecoderBlock cfg p).enc_attention.call a2 tL source
        source_lengths sL)
      (some t1) tL b hL (hcross.trans hs3)
      (fun q hq => Option.some.inj hq ▸ hs2) hpost (fun _ => ⟨t1, rfl⟩)
  obtain ⟨a3, h5, hs5⟩ :=
    processBlock_call_shape env (mkTransformerDecoderBlock cfg p).pre_ff
      t2 none tL b hL hs4 (fun q hq => by cases hq) hpre
      (fun hmem => absurd hmem hnor)
  have hffs : inferShape env ((mkTransformerDecoderBlock cfg p).ff.call a3 tL) =
      some [b, tL, cfg.model_size] :=
    feedForward_call_shape env (mkTransformerDecoderBlock cfg p).ff a3 b tL
      cfg.model_size hL hm hs5
  obtain ⟨y, h6, hs6⟩ :=
    processBlock_call_shape env (mkTransformerDecoderBlock cfg p).post_ff
      ((mkTransformerDecoderBlock cfg p).ff.call a3 tL)
      (some t2) tL b hL hffs
      (fun q hq => Option.some.inj hq ▸ hs4) hpost (fun _ => ⟨t2, rfl⟩)
  refine ⟨a1, t1, a2, t2, a3, y, h1, h2, h3, h4, h5, h6, ?_, hs6⟩
  simp only [TransformerDecoderBlock.call, h1, h2, h3, h4, h5, h6]

theorem decoderBlock_pipeline_witness :
    ∃ a1 t1 a2 t2 a3 y,
      (mkTransformerDecoderBlock
            ⟨4, 2, 8, 1, 10, 0, 0, 0, false, "f", ['n'], ['d', 'r', 'n'], 10, 10,
              none⟩ "d_").pre_self_attention.call (Symb.var "t") none 3 =
          Except.ok a1 ∧
        (mkTransformerDecoderBlock
            ⟨4, 2, 8, 1, 10, 0, 0, 0, false, "f", ['n'], ['d', 'r', 'n'], 10, 10,
              none⟩ "d_").post_self_attention.call
          ((mkTransformerDecoderBlock
            ⟨4, 2, 8, 1, 10, 0, 0, 0, false, "f", ['n'], ['d', 'r', 'n'], 10, 10,
              none⟩ "d_").self_attention.call a1 (Symb.var "tl") 3
            (some (Symb.var "bias"))) (Symb.var "t") 3 = Except.ok t1 ∧
        (mkTransformerDecoderBlock
            ⟨4, 2, 8, 1, 10, 0, 0, 0, false, "f", ['n'], ['d', 'r', 'n'], 10, 10,
              none⟩ "d_").pre_enc_attention.call t1 none 3 = Except.ok a2 ∧
        (mkTransformerDecoderBlock
            ⟨4, 2, 8, 1, 10, 0, 0, 0, false, "f", ['n'], ['d', 'r', 'n'], 10, 10,
              none⟩ "d_").post_enc_attention.call
          ((mkTransformerDecoderBlock
            ⟨4, 2, 8, 1, 10, 0, 0, 0, false, "f", ['n'], ['d', 'r', 'n'], 10, 10,
              none⟩ "d_").enc_attention.call a2 3 (Symb.var "s") (Symb.var "sl") 5)
          t1 3 = Except.ok t2 ∧
        (mkTransformerDecoderBlock
            ⟨4, 2, 8, 1, 10, 0, 0, 0, false, "f", ['n'], ['d', 'r', 'n'], 10, 10,
              none⟩ "d_").pre_ff.call t2 none 3 = Except.ok a3 ∧
        (mkTransformerDecoderBlock
            ⟨4, 2, 8, 1, 10, 0, 0, 0, false, "f", ['n'], ['d', 'r', 'n'], 10, 10,
              none⟩ "d_").post_ff.call
          ((mkTransformerDecoderBlock
            ⟨4, 2, 8, 1, 10, 0, 0, 0, false, "f", ['n'], ['d', 'r', 'n'], 10, 10,
              none⟩ "d_").ff.call a3 3) t2 3 = Except.ok y ∧
        (mkTransformerDecoderBlock
            ⟨4, 2, 8, 1, 10, 0, 0, 0, false, "f", ['n'], ['d', 'r', 'n'], 10, 10,
              none⟩ "d_").call (Symb.var "t") (Symb.var "tl") 3 (Symb.var "bias")
          (Symb.var "s") (Symb.var "sl") 5 = Except.ok y ∧
        inferShape (fun n => if n = "t" then some [2, 3, 4] else none) y =
          some [2, 3, 4] :=
  decoderBlock_pipeline (fun n => if n = "t" then some [2, 3, 4] else none)
    ⟨4, 2, 8, 1, 10, 0, 0, 0, false, "f", ['n'], ['d', 'r', 'n'], 10, 10, none⟩
    "d_" (Symb.var "t") (Symb.var "tl") (Symb.var "bias") (Symb.var "s")
    (Symb.var "sl") 3 5 2 (by decide) (by decide) (by decide) (by decide)
    (by decide) (by decide)
